import Mathlib

/-!
Verification of the control logic of the Vision_OS ↔ Wuji hand bridge
(`wuji_bridge.py`).  Joint angles are modelled as exact rationals; a pose is
the 5×4 matrix of per-finger, per-joint values used throughout the bridge.
Each definition below embeds one function (or one field-initialisation site)
of the `WujiBridge` class; theorems settle the specification's claims about
the extension mapper, the motion filter, the reset/unjam sequencer, the
error-clear throttle, the reconnect backoff and the `hand_data` handler.
-/

namespace WujiBridge

/-- A 5×4 matrix of joint values (fingers × joints), as in the numpy arrays
of the bridge. -/
abbrev Pose := Fin 5 → Fin 4 → ℚ

/-- `np.clip(x, lo, hi)`: lower bound applied first, then the upper bound. -/
def npClip (x lo hi : ℚ) : ℚ := min (max x lo) hi

/-- Componentwise `np.clip` of a pose to `[lo, hi]`. -/
def npClipPose (p lo hi : Pose) : Pose := fun i j => npClip (p i j) (lo i j) (hi i j)

/-- The five fingers, in the order of `FINGER_INDEX`. -/
inductive Finger where
  | thumb | index | middle | ring | pinky
deriving DecidableEq, Repr

/-- `FINGER_INDEX`: row index of each finger in a pose. -/
def FINGER_INDEX : Finger → Fin 5
  | .thumb => 0
  | .index => 1
  | .middle => 2
  | .ring => 3
  | .pinky => 4

/-- Inverse of `FINGER_INDEX` (each pose row belongs to exactly one finger). -/
def fingerOfRow : Fin 5 → Finger
  | 0 => .thumb
  | 1 => .index
  | 2 => .middle
  | 3 => .ring
  | 4 => .pinky

/-- `DEFAULT_FINGER_WEIGHTS = [0.70, 1.00, 0.80, 0.00]`. -/
def DEFAULT_FINGER_WEIGHTS : Fin 4 → ℚ := ![7/10, 1, 4/5, 0]

/-- `DEFAULT_THUMB_WEIGHTS = [1.00, 0.90, 0.60, 0.00]`. -/
def DEFAULT_THUMB_WEIGHTS : Fin 4 → ℚ := ![1, 9/10, 3/5, 0]

/-- The bridge's default `finger_weights` table (thumb uses the thumb weights,
every other finger the generic weights). -/
def defaultFingerWeights : Finger → Fin 4 → ℚ
  | .thumb => DEFAULT_THUMB_WEIGHTS
  | _ => DEFAULT_FINGER_WEIGHTS

/-! ### Mock calibration (`_set_mock_calibration`) -/

/-- `self.lower = np.zeros((5, 4))` in `_set_mock_calibration`. -/
def mock_lower : Pose := fun _ _ => 0

/-- The `self.upper` matrix of `_set_mock_calibration` (rows: thumb, index,
middle, ring, pinky). -/
def mock_upper : Pose := fun i =>
  match i with
  | 0 => ![6/5, 1, 4/5, 0]
  | 1 => ![11/10, 6/5, 1, 0]
  | 2 => ![11/10, 6/5, 1, 0]
  | 3 => ![11/10, 6/5, 1, 0]
  | 4 => ![11/10, 6/5, 1, 0]

/-- `self.min_lim = np.minimum(self.lower, self.upper)`. -/
def mock_min_lim : Pose := fun i j => min (mock_lower i j) (mock_upper i j)

/-- `self.max_lim = np.maximum(self.lower, self.upper)`. -/
def mock_max_lim : Pose := fun i j => max (mock_lower i j) (mock_upper i j)

/-- `self.open_pose = np.array(self.lower)` in `_set_mock_calibration`. -/
def mock_open_pose : Pose := mock_lower

/-- `self.closed_pose = np.array(self.upper)` in `_set_mock_calibration`. -/
def mock_closed_pose : Pose := mock_upper

/-! ### Extension mapper (`_compute_target_from_extensions`) -/

/-- One entry of the `extensions` mapping as the handler may receive it:
absent from the dict, present but not convertible by `float(...)`, or a
numeric value. -/
inductive ExtInput where
  | missing
  | nonNumeric
  | val (x : ℚ)
deriving DecidableEq, Repr

/-- `extensions.get(name, 0.0)` followed by `float(raw)` under
`try/except` with fallback `0.0`. -/
def extFloatOrZero : ExtInput → ℚ
  | .missing => 0
  | .nonNumeric => 0
  | .val x => x

/-- The mapper-relevant state of the bridge: `open_pose`, `closed_pose`
(optional: `None` until a calibration is installed), `max_curl` and the
`finger_weights` table. -/
structure MapperState where
  open_pose : Option Pose
  closed_pose : Option Pose
  max_curl : ℚ
  weights : Finger → Fin 4 → ℚ

/-- The guard `if not (0.0 <= max_curl <= 1.0): max_curl = 1.0` at the top of
`_compute_target_from_extensions`. -/
def sanitizeMaxCurl (mc : ℚ) : ℚ := if 0 ≤ mc ∧ mc ≤ 1 then mc else 1

/-- The loop body of `_compute_target_from_extensions` for one finger and one
joint: default/parse the extension, clamp it to `[0,100]`, form the curl,
ceiling it at `max_curl`, and interpolate between open and closed. -/
def fingerJointTarget (op cp : Pose) (mc : ℚ) (w : Finger → Fin 4 → ℚ)
    (exts : Finger → ExtInput) (f : Finger) (j : Fin 4) : ℚ :=
  let ext := max 0 (min 100 (extFloatOrZero (exts f)))
  let curl := min (1 - ext / 100) mc
  op (FINGER_INDEX f) j + (curl * w f j) * (cp (FINGER_INDEX f) j - op (FINGER_INDEX f) j)

/-- Overwrite one row of a pose (the `tgt[finger_idx, :] = ...` assignment). -/
def setRow (p : Pose) (i : Fin 5) (row : Fin 4 → ℚ) : Pose :=
  fun i' j => if i' = i then row j else p i' j

/-- The iteration order of `FINGER_INDEX.items()`. -/
def fingerList : List Finger := [.thumb, .index, .middle, .ring, .pinky]

/-- The row-assignment loop of `_compute_target_from_extensions`: start from a
copy of `open_pose` and overwrite each finger's row in turn. -/
def mapperRows (op cp : Pose) (mc : ℚ) (w : Finger → Fin 4 → ℚ)
    (exts : Finger → ExtInput) : Pose :=
  fingerList.foldl
    (fun t f => setRow t (FINGER_INDEX f) (fun j => fingerJointTarget op cp mc w exts f j)) op

/-- `_compute_target_from_extensions`: raises (`Except.error`) when
`open_pose` or `closed_pose` is unset, otherwise returns the target built by
the per-finger loop. -/
def compute_target_from_extensions (st : MapperState) (exts : Finger → ExtInput) :
    Except String Pose :=
  match st.open_pose, st.closed_pose with
  | some op, some cp =>
      .ok (mapperRows op cp (sanitizeMaxCurl st.max_curl) st.weights exts)
  | _, _ => .error "Hardware not calibrated (joint limits missing)."

/-- The mapper state the bridge has under its default (mock) calibration and
default weights, with the default `--max-curl` of `0.85`. -/
def defaultMapperState : MapperState :=
  { open_pose := some mock_open_pose
    closed_pose := some mock_closed_pose
    max_curl := 17/20
    weights := defaultFingerWeights }

/-! ### Motion filter (`_filter_target`) and safe open pose (`_safe_open_pose`) -/

/-- The speed-limit configuration consumed by `_filter_target`:
`cfg.max_speed_rad_s` (normal operation) and `cfg.unjam_max_speed_rad_s`
(active reset/unjam). -/
structure FilterCfg where
  max_speed_rad_s : ℚ
  unjam_max_speed_rad_s : ℚ

/-- The bridge's defaults: `--max-speed 2.0`, `--unjam-max-speed 0.12`. -/
def defaultFilterCfg : FilterCfg :=
  { max_speed_rad_s := 2, unjam_max_speed_rad_s := 3/25 }

/-- `_safe_open_pose`: move the OPEN pose by `margin` towards CLOSED (an
out-of-range margin falls back to `0.1`), then clip to the limits when they
are known.  Callers with a calibrated bridge always have `open_pose` and
`closed_pose` set, so both are taken here as plain poses. -/
def safe_open_pose (op cp : Pose) (limits : Option (Pose × Pose)) (margin : ℚ) : Pose :=
  let m := if 0 ≤ margin ∧ margin ≤ 1/2 then margin else 1/10
  let tgt : Pose := fun i j => op i j + m * (cp i j - op i j)
  match limits with
  | some (lo, hi) => npClipPose tgt lo hi
  | none => tgt

/-- Step (1) of `_filter_target`: clip the desired pose to `[min_lim, max_lim]`
when the limits are known. -/
def clampedDesired (limits : Option (Pose × Pose)) (desired : Pose) : Pose :=
  match limits with
  | some (lo, hi) => npClipPose desired lo hi
  | none => desired

/-- `_filter_target`: clip the desired pose to `[min_lim, max_lim]` when the
limits are known, clamp the elapsed time to `[0, 0.2]`, pick the active max
speed from the reset flag, and — when a previous target exists and both the
speed and the elapsed time are positive — clamp the per-joint delta to
`[-max_speed*dt, max_speed*dt]`.  `dtRaw` is `now - self._last_target_monotonic`. -/
def filter_target (cfg : FilterCfg) (limits : Option (Pose × Pose))
    (prev : Option Pose) (reset_active : Bool) (dtRaw : ℚ) (desired : Pose) : Pose :=
  let tgt : Pose := clampedDesired limits desired
  let dt := max 0 (min dtRaw (1/5))
  let max_speed := if reset_active then cfg.unjam_max_speed_rad_s else cfg.max_speed_rad_s
  match prev with
  | some p =>
      if max_speed > 0 ∧ dt > 0 then
        let max_step := max_speed * dt
        if max_step > 0 then
          fun i j => p i j + npClip (tgt i j - p i j) (-max_step) max_step
        else tgt
      else tgt
  | none => tgt

/-! ### Applied-target invariant: runs of the motion filter -/

/-- `np.where(open_is_lower, lower, upper)` in `_set_open_closed_from_limits`:
the open pose picks, per joint, either the lower or the upper limit (the mask
`sel` covers the three `open_pose_mode` policies, including the
nearest-to-actual mask of `"auto"` mode). -/
def open_src (sel : Fin 5 → Fin 4 → Bool) (lower upper : Pose) : Pose :=
  fun i j => if sel i j then lower i j else upper i j

/-- A run of the control loop's filter applications: starting from an initial
`last_target`, fold `_filter_target` over a list of
(desired pose, elapsed time, reset-active flag) inputs with fixed limits. -/
def filterRun (cfg : FilterCfg) (lo hi : Pose) (init : Pose)
    (inputs : List (Pose × ℚ × Bool)) : Pose :=
  inputs.foldl
    (fun last inp => filter_target cfg (some (lo, hi)) (some last) inp.2.2 inp.2.1 inp.1) init

/-! ### Reset/unjam sequencer: per-tick completion logic of `telemetry_loop` -/

/-- The sequencer fields of the bridge that the reset-completion block of
`telemetry_loop` reads and writes: `_reset_active`, `_reset_phase`,
`_reset_start_monotonic`, `_reset_phase_start_monotonic`,
`_reset_deadline_monotonic`, `_reset_reason`. -/
structure SeqState where
  active : Bool
  phase : ℕ
  startT : ℚ
  phaseStart : ℚ
  deadline : ℚ
  reason : String
deriving DecidableEq, Repr

/-- `_reset_phase_finger_index`: the dict `{1: 1, 2: 2, 3: 3, 4: 4, 5: 0}`
(phases 1–4 are index/middle/ring/pinky, phase 5 is the thumb). -/
def reset_phase_finger_index (phase : ℕ) : Option (Fin 5) :=
  if phase = 1 then some 1
  else if phase = 2 then some 2
  else if phase = 3 then some 3
  else if phase = 4 then some 4
  else if phase = 5 then some 0
  else none

/-- The per-finger failsafe budget by trigger reason: `"hard"` 18 s,
`"arm"` 10 s, default 12 s. -/
def per_finger_timeout_s (reason : String) : ℚ :=
  if reason = "hard" then 18 else if reason = "arm" then 10 else 12

/-- `np.max(np.abs(pos[fi,:] - open[fi,:]))`: worst joint error of one
finger against the open target. -/
def rowErr (p openT : Pose) (fi : Fin 5) : ℚ :=
  max (max |p fi 0 - openT fi 0| |p fi 1 - openT fi 1|)
      (max |p fi 2 - openT fi 2| |p fi 3 - openT fi 3|)

/-- `np.max(np.abs(pos - open))`: worst joint error of the whole hand. -/
def allErr (p openT : Pose) : ℚ :=
  max (max (rowErr p openT 0) (rowErr p openT 1))
      (max (rowErr p openT 2) (max (rowErr p openT 3) (rowErr p openT 4)))

/-- The open target the completion block compares against:
`_safe_open_pose(0.25 if err_has_any else None)` (a `None` margin falls back
to the configured `_open_margin`). -/
def tickOpenTarget (op cp : Pose) (limits : Option (Pose × Pose))
    (open_margin : ℚ) (errAny : Bool) : Pose :=
  safe_open_pose op cp limits (if errAny then 1/4 else open_margin)

/-- The per-finger advancement step for phases 1–4: advance when the active
finger is within threshold of open, or when the per-finger failsafe timeout
(capped by the remaining session budget, floored at 2 s) has elapsed.
Returns the new `(phase, phase_start)` pair. -/
def phaseAdvance (thr : ℚ) (openT : Pose) (s : SeqState) (now : ℚ) (p : Pose) : ℕ × ℚ :=
  if 1 ≤ s.phase ∧ s.phase ≤ 4 then
    match reset_phase_finger_index s.phase with
    | some fi =>
        if rowErr p openT fi ≤ thr then (s.phase + 1, now)
        else
          let remaining := max 0 (s.deadline - now)
          let failsafe := min (per_finger_timeout_s s.reason) (max 2 remaining)
          if now - s.phaseStart ≥ failsafe then (s.phase + 1, now)
          else (s.phase, s.phaseStart)
    | none => (s.phase, s.phaseStart)
  else (s.phase, s.phaseStart)

/-- The `if done:` block: back to Idle — active flag off, phase 0, start and
phase-start cleared, reason cleared (the deadline field is left as is). -/
def idleAfterDone (s : SeqState) : SeqState :=
  { s with active := false, phase := 0, startT := 0, phaseStart := 0, reason := "" }

/-- The reset-completion block of `telemetry_loop` for one tick of an active
session: at or past the deadline the session is done outright; otherwise,
with a successful position read, phases 1–4 may advance, and the session is
done when the phase has reached 5 and every joint is within threshold of the
open target.  `pos` is `None` when the tick's hardware read failed or was
skipped.  (The bridge always has `open_pose`/`closed_pose` set after
construction, so `op`/`cp` are plain poses here.) -/
def reset_completion_tick (thr open_margin : ℚ) (op cp : Pose)
    (limits : Option (Pose × Pose)) (errAny : Bool) (s : SeqState) (now : ℚ)
    (pos : Option Pose) : SeqState :=
  if s.active then
    if now ≥ s.deadline then idleAfterDone s
    else
      match pos with
      | some p =>
          let openT := tickOpenTarget op cp limits open_margin errAny
          let a := phaseAdvance thr openT s now p
          let s' := { s with phase := a.1, phaseStart := a.2 }
          if 5 ≤ s'.phase ∧ allErr p openT ≤ thr then idleAfterDone s' else s'
      | none => s
  else s

/-- A sample active session (as entered by the ARM trigger with a 60 s
budget), used to instantiate the sequencer theorem. -/
def sampleArmSession : SeqState :=
  { active := true, phase := 1, startT := 0, phaseStart := 0, deadline := 60, reason := "arm" }

/-! ### Error-clear throttle during an active reset (`telemetry_loop`) -/

/-- The throttle state: `_last_reset_error_monotonic` and
`_reset_error_clear_count` (both re-initialised to `0` on session entry). -/
structure ClearState where
  lastClear : ℚ
  count : ℕ
deriving DecidableEq, Repr

/-- One tick of the error-clear throttle: issue `write_joint_reset_error`
exactly when errors are present, fewer than 20 clears have been issued this
session, and at least 2 s have passed since the previous clear; on issue,
record the time and bump the counter.  The boolean reports whether the write
was issued. -/
def clearStep (st : ClearState) (now : ℚ) (errAny : Bool) : ClearState × Bool :=
  if errAny = true ∧ st.count < 20 ∧ 2 ≤ now - st.lastClear then
    ({ lastClear := now, count := st.count + 1 }, true)
  else (st, false)

/-- Fold the throttle over a session's ticks (each tick brings a time and the
`err_has_any` flag); returns the final state and the times at which clear
writes were issued, in tick order. -/
def clearRun (st : ClearState) : List (ℚ × Bool) → ClearState × List ℚ
  | [] => (st, [])
  | (t, e) :: rest =>
      let step := clearStep st t e
      let tail := clearRun step.1 rest
      (tail.1, if step.2 then t :: tail.2 else tail.2)

/-! ### Reconnect backoff (`connect_hardware`) -/

/-- The update of `_connect_backoff_s` by one `connect_hardware` attempt:
success resets it to `3.0`; failure sleeps the current value and multiplies
it by `1.5`, saturating at `30.0`. -/
def connect_backoff_step (b : ℚ) (success : Bool) : ℚ :=
  if success then 3 else min (b * (3/2)) 30

/-- The value of `_connect_backoff_s` entering the `(n+1)`-st consecutive
failed attempt (index 0 is the initial / post-success value `3.0`); this is
exactly the delay scheduled by that failure. -/
def backoffAfterFailures : ℕ → ℚ
  | 0 => 3
  | n + 1 => connect_backoff_step (backoffAfterFailures n) false

/-! ### The `hand_data` branch of `handle_client` -/

/-- The bridge fields the `hand_data` branch can read or write. -/
structure BridgeState where
  armed : Bool
  reset_active : Bool
  desired_target : Option Pose
  last_target : Option Pose
  mock_position : Pose
  last_recv_monotonic : ℚ
  last_cmd_ts_ms : Option ℤ
  cmd_times : List ℚ
  last_hw_error : Option String
  mapper : MapperState

/-- `deque(maxlen=200).append`: keep the most recent `maxlen` entries. -/
def dequeAppend (maxlen : ℕ) (xs : List ℚ) (x : ℚ) : List ℚ :=
  let ys := xs ++ [x]
  ys.drop (ys.length - maxlen)

/-- The `hand_data` branch of `handle_client`: always record the receive time,
the command timestamp and the rate-window entry; then bail out when disarmed
or when a reset sequence is active; otherwise map the extensions to a new
`desired_target` (recording the error message instead if the mapper raises). -/
def handle_hand_data (st : BridgeState) (now : ℚ) (ts : ℤ)
    (exts : Finger → ExtInput) : BridgeState :=
  let st1 := { st with
    last_recv_monotonic := now
    last_cmd_ts_ms := some ts
    cmd_times := dequeAppend 200 st.cmd_times now }
  if st1.armed = false then st1
  else if st1.reset_active = true then st1
  else
    match compute_target_from_extensions st1.mapper exts with
    | .ok tgt => { st1 with desired_target := some tgt }
    | .error e => { st1 with last_hw_error := some e }

/-- The spec's per-joint mapping formula (§4.1), stated directly: default the
extension to 0 when missing or non-numeric, clamp it to `[0,100]`, set
`curl = min(1 - extension/100, max_curl)`, and output
`open_pose + curl * weight[joint] * (closed_pose - open_pose)`.  Used only to
compare the code's mapper against the spec's words. -/
def specMapperTarget (op cp : Pose) (mc : ℚ) (w : Finger → Fin 4 → ℚ)
    (exts : Finger → ExtInput) : Pose :=
  fun i j =>
    let ext := max 0 (min 100 (extFloatOrZero (exts (fingerOfRow i))))
    let curl := min (1 - ext / 100) mc
    op i j + curl * w (fingerOfRow i) j * (cp i j - op i j)

/-- A sample disarmed bridge state (fresh bridge before any ARM), used to
instantiate the handler theorem. -/
def sampleDisarmedState : BridgeState :=
  { armed := false
    reset_active := false
    desired_target := some mock_open_pose
    last_target := some mock_open_pose
    mock_position := mock_open_pose
    last_recv_monotonic := 0
    last_cmd_ts_ms := none
    cmd_times := []
    last_hw_error := none
    mapper := defaultMapperState }

/-! ## Theorems -/

/-- Unfolding the row loop: the output row of finger-index `i` is the loop
body evaluated at the finger owning that row. -/
theorem mapperRows_apply (op cp : Pose) (mc : ℚ) (w : Finger → Fin 4 → ℚ)
    (exts : Finger → ExtInput) (i : Fin 5) (j : Fin 4) :
    mapperRows op cp mc w exts i j = fingerJointTarget op cp mc w exts (fingerOfRow i) j := by
  fin_cases i <;>
    simp [mapperRows, fingerList, setRow, FINGER_INDEX, fingerOfRow, List.foldl]

theorem npClip_eq_self {x lo hi : ℚ} (h1 : lo ≤ x) (h2 : x ≤ hi) :
    npClip x lo hi = x := by
  simp [npClip, max_eq_left h1, min_eq_left h2]

theorem npClip_mem {x lo hi : ℚ} (h : lo ≤ hi) :
    lo ≤ npClip x lo hi ∧ npClip x lo hi ≤ hi := by
  constructor
  · exact le_min (le_max_right x lo) h
  · exact min_le_right _ _

theorem abs_npClip_le {x s : ℚ} (hs : 0 ≤ s) : |npClip x (-s) s| ≤ s := by
  rw [abs_le]
  constructor
  · exact le_min (le_max_right x (-s)) (neg_le_self hs)
  · exact min_le_right _ _

/-- The speed-limited step lands between the previous value and the (clamped)
desired value. -/
theorem npClip_step_between {p t s : ℚ} (hs : 0 < s) :
    min p t ≤ p + npClip (t - p) (-s) s ∧ p + npClip (t - p) (-s) s ≤ max p t := by
  unfold npClip
  rcases le_total p t with h | h
  · have hd : 0 ≤ t - p := sub_nonneg.mpr h
    have hc0 : 0 ≤ min (max (t - p) (-s)) s :=
      le_min (le_trans hd (le_max_left _ _)) hs.le
    have hct : min (max (t - p) (-s)) s ≤ t - p := by
      rw [max_eq_left (le_trans (neg_nonpos.mpr hs.le) hd)]
      exact min_le_left _ _
    rw [min_eq_left h, max_eq_right h]
    exact ⟨by linarith, by linarith⟩
  · have hd : t - p ≤ 0 := sub_nonpos.mpr h
    have hc0 : min (max (t - p) (-s)) s ≤ 0 :=
      le_trans (min_le_left _ _) (max_le hd (neg_nonpos.mpr hs.le))
    have hct : t - p ≤ min (max (t - p) (-s)) s :=
      le_min (le_max_left _ _) (le_trans hd hs.le)
    rw [min_eq_right h, max_eq_left h]
    exact ⟨by linarith, by linarith⟩

/-- C1, counterexample: the claim "in normal mode the filter output equals the
clamped desired pose exactly, regardless of jump size" is false on the code.
With the default configuration (`max_speed_rad_s = 2`), the mock calibration,
previous target = open pose, elapsed time `0.1 s` and desired = closed pose,
the thumb base joint is rate-limited to `0.2` instead of the clamped desired
`1.2`. -/
theorem C1_counterexample :
    filter_target defaultFilterCfg (some (mock_min_lim, mock_max_lim))
      (some mock_open_pose) false (1/10) mock_closed_pose 0 0 ≠
    clampedDesired (some (mock_min_lim, mock_max_lim)) mock_closed_pose 0 0 := by
  norm_num [filter_target, clampedDesired, npClipPose, npClip, mock_min_lim,
    mock_max_lim, mock_open_pose, mock_closed_pose, mock_lower, mock_upper,
    defaultFilterCfg]

/-- C1, amended: in normal mode (no reset active), the Motion Filter's output
equals the desired pose clamped componentwise to `[min_lim, max_lim]` exactly,
provided software speed limiting is disabled (`max_speed_rad_s ≤ 0`) or the
per-joint jump from the previous applied pose to the clamped desired pose is at
most `max_speed * dt` (with `dt` the elapsed time clamped to `[0, 0.2]`);
larger jumps are rate-limited at `max_speed`, exactly as in recovery mode. -/
theorem C1_normal_mode_clamped_when_within_speed (cfg : FilterCfg)
    (limits : Option (Pose × Pose)) (p desired : Pose) (dtRaw : ℚ)
    (h : cfg.max_speed_rad_s ≤ 0 ∨
      ∀ i j, |clampedDesired limits desired i j - p i j| ≤
        cfg.max_speed_rad_s * max 0 (min dtRaw (1/5)))
    (i : Fin 5) (j : Fin 4) :
    filter_target cfg limits (some p) false dtRaw desired i j =
      clampedDesired limits desired i j := by
  simp only [filter_target, Bool.false_eq_true, if_false]
  split_ifs with h1 h2
  · rcases h with h | h
    · exact absurd h1.1 (not_lt.mpr h)
    · have hb := abs_le.mp (h i j)
      simp only [npClip_eq_self hb.1 hb.2]
      ring
  · rfl
  · rfl

/-- C1, witness: a zero-size jump under the default configuration. -/
theorem C1_normal_mode_clamped_when_within_speed_witness :
    (defaultFilterCfg.max_speed_rad_s ≤ 0 ∨
      ∀ i j, |clampedDesired (some (mock_min_lim, mock_max_lim)) mock_open_pose i j -
          mock_open_pose i j| ≤
        defaultFilterCfg.max_speed_rad_s * max 0 (min (1/10) (1/5))) ∧
    (∀ i j, filter_target defaultFilterCfg (some (mock_min_lim, mock_max_lim))
        (some mock_open_pose) false (1/10) mock_open_pose i j =
      clampedDesired (some (mock_min_lim, mock_max_lim)) mock_open_pose i j) := by
  have h : defaultFilterCfg.max_speed_rad_s ≤ 0 ∨
      ∀ i j, |clampedDesired (some (mock_min_lim, mock_max_lim)) mock_open_pose i j -
          mock_open_pose i j| ≤
        defaultFilterCfg.max_speed_rad_s * max 0 (min (1/10) (1/5)) := by
    refine Or.inr fun i j => ?_
    fin_cases i <;> fin_cases j <;>
      norm_num [clampedDesired, npClipPose, npClip, mock_min_lim, mock_max_lim,
        mock_open_pose, mock_lower, mock_upper, defaultFilterCfg, min_def, max_def]
  exact ⟨h, fun i j =>
    C1_normal_mode_clamped_when_within_speed defaultFilterCfg _ _ _ _ h i j⟩

/-- C4: in recovery mode (reset/unjam active) with a positive recovery max
speed and positive elapsed time, the componentwise distance between the
filter's output and the previous applied pose is at most
`unjam_max_speed * min dtRaw 0.2` — i.e. at most `max_speed * dt` for
`dt ∈ (0, 0.2]`, with longer elapsed times clamped to `0.2 s` before the
bound is computed. -/
theorem C4_recovery_speed_bound (cfg : FilterCfg) (limits : Option (Pose × Pose))
    (p desired : Pose) (dtRaw : ℚ) (hs : 0 < cfg.unjam_max_speed_rad_s)
    (hdt : 0 < dtRaw) (i : Fin 5) (j : Fin 4) :
    |filter_target cfg limits (some p) true dtRaw desired i j - p i j| ≤
      cfg.unjam_max_speed_rad_s * min dtRaw (1/5) := by
  have hmin : (0:ℚ) < min dtRaw (1/5) := lt_min hdt (by norm_num)
  have hmax : max 0 (min dtRaw (1/5)) = min dtRaw (1/5) := max_eq_right hmin.le
  have hstep : 0 < cfg.unjam_max_speed_rad_s * min dtRaw (1/5) := mul_pos hs hmin
  simp only [filter_target, if_true, hmax]
  rw [if_pos ⟨hs, hmin⟩, if_pos hstep]
  simp only [add_sub_cancel_left]
  exact abs_npClip_le hstep.le

/-- C4, witness: a full open-to-closed jump during recovery under the default
configuration moves the thumb base joint by at most `0.12 * 0.1` rad. -/
theorem C4_recovery_speed_bound_witness :
    (0 < defaultFilterCfg.unjam_max_speed_rad_s ∧ 0 < (1/10 : ℚ)) ∧
    |filter_target defaultFilterCfg (some (mock_min_lim, mock_max_lim))
        (some mock_open_pose) true (1/10) mock_closed_pose 0 0 -
      mock_open_pose 0 0| ≤
      defaultFilterCfg.unjam_max_speed_rad_s * min (1/10) (1/5) :=
  ⟨⟨by norm_num [defaultFilterCfg], by norm_num⟩,
    C4_recovery_speed_bound defaultFilterCfg _ _ _ _
      (by norm_num [defaultFilterCfg]) (by norm_num) 0 0⟩

theorem FINGER_INDEX_fingerOfRow (i : Fin 5) : FINGER_INDEX (fingerOfRow i) = i := by
  fin_cases i <;> rfl

theorem sanitizeMaxCurl_mem (mc : ℚ) :
    0 ≤ sanitizeMaxCurl mc ∧ sanitizeMaxCurl mc ≤ 1 := by
  unfold sanitizeMaxCurl
  split_ifs with h
  · exact h
  · norm_num

theorem curl_mem (e mc : ℚ) (h : 0 ≤ mc ∧ mc ≤ 1) :
    0 ≤ min (1 - max 0 (min 100 e) / 100) mc ∧
      min (1 - max 0 (min 100 e) / 100) mc ≤ 1 := by
  constructor
  · refine le_min ?_ h.1
    have hext : max 0 (min 100 e) ≤ 100 := max_le (by norm_num) (min_le_left _ _)
    linarith
  · exact le_trans (min_le_right _ _) h.2

theorem defaultFingerWeights_mem (f : Finger) (j : Fin 4) :
    0 ≤ defaultFingerWeights f j ∧ defaultFingerWeights f j ≤ 1 := by
  cases f <;> fin_cases j <;> constructor <;>
    norm_num [defaultFingerWeights, DEFAULT_FINGER_WEIGHTS, DEFAULT_THUMB_WEIGHTS]

/-- An affine combination with coefficient in `[0,1]` lies between its two
endpoints. -/
theorem affine_between {o c l : ℚ} (h0 : 0 ≤ l) (h1 : l ≤ 1) :
    min o c ≤ o + l * (c - o) ∧ o + l * (c - o) ≤ max o c := by
  rcases le_total o c with h | h
  · rw [min_eq_left h, max_eq_right h]
    constructor <;> nlinarith
  · rw [min_eq_right h, max_eq_left h]
    constructor <;> nlinarith

/-- C2: with the bridge's default (mock) calibration and default finger
weights, the Extension Mapper succeeds on every extensions mapping — entries
out of range, non-numeric or missing included — and every entry of the
returned target pose lies within `[min_lim, max_lim]` componentwise. -/
theorem C2_default_output_within_limits (exts : Finger → ExtInput)
    (i : Fin 5) (j : Fin 4) :
    ∃ t, compute_target_from_extensions defaultMapperState exts = Except.ok t ∧
      mock_min_lim i j ≤ t i j ∧ t i j ≤ mock_max_lim i j := by
  refine ⟨_, rfl, ?_⟩
  rw [mapperRows_apply]
  unfold fingerJointTarget
  rw [FINGER_INDEX_fingerOfRow]
  have hcurl := curl_mem (extFloatOrZero (exts (fingerOfRow i)))
    (sanitizeMaxCurl defaultMapperState.max_curl)
    (sanitizeMaxCurl_mem defaultMapperState.max_curl)
  have hw := defaultFingerWeights_mem (fingerOfRow i) j
  have hl0 : 0 ≤ min (1 - max 0 (min 100 (extFloatOrZero (exts (fingerOfRow i)))) / 100)
      (sanitizeMaxCurl defaultMapperState.max_curl) * defaultFingerWeights (fingerOfRow i) j :=
    mul_nonneg hcurl.1 hw.1
  have hl1 : min (1 - max 0 (min 100 (extFloatOrZero (exts (fingerOfRow i)))) / 100)
      (sanitizeMaxCurl defaultMapperState.max_curl) * defaultFingerWeights (fingerOfRow i) j ≤ 1 :=
    mul_le_one₀ hcurl.2 hw.1 hw.2
  have hb := affine_between (o := mock_open_pose i j) (c := mock_closed_pose i j) hl0 hl1
  simp only [mock_min_lim, mock_max_lim, mock_open_pose, mock_closed_pose] at hb ⊢
  exact hb

/-- C3: the Extension Mapper computes exactly the spec's per-joint formula
`open + min(1 - clamp(ext)/100, max_curl) * weight * (closed - open)` (with
missing/non-numeric extensions defaulting to 0); in particular extension 100
on all fingers yields the open pose, and extension 0 yields
`open + max_curl * weight * (closed - open)`, linearly in curl in between. -/
theorem C3_mapper_matches_spec_formula (st : MapperState) (op cp : Pose)
    (h1 : st.open_pose = some op) (h2 : st.closed_pose = some cp)
    (exts : Finger → ExtInput) :
    compute_target_from_extensions st exts =
      Except.ok (specMapperTarget op cp (sanitizeMaxCurl st.max_curl) st.weights exts) ∧
    (∀ i j, specMapperTarget op cp (sanitizeMaxCurl st.max_curl) st.weights
        (fun _ => .val 100) i j = op i j) ∧
    (∀ i j, specMapperTarget op cp (sanitizeMaxCurl st.max_curl) st.weights
        (fun _ => .val 0) i j =
      op i j + sanitizeMaxCurl st.max_curl * st.weights (fingerOfRow i) j *
        (cp i j - op i j)) := by
  have hmc := sanitizeMaxCurl_mem st.max_curl
  refine ⟨?_, ?_, ?_⟩
  · unfold compute_target_from_extensions
    rw [h1, h2]
    show Except.ok (mapperRows op cp (sanitizeMaxCurl st.max_curl) st.weights exts) = _
    congr 1
    funext i j
    rw [mapperRows_apply]
    unfold fingerJointTarget specMapperTarget
    rw [FINGER_INDEX_fingerOfRow]
  · intro i j
    have h100 : max 0 (min 100 (100:ℚ)) = 100 := by
      rw [min_self]
      exact max_eq_right (by norm_num)
    simp only [specMapperTarget, extFloatOrZero, h100]
    norm_num
    exact Or.inl (Or.inl hmc.1)
  · intro i j
    have h0 : max 0 (min 100 (0:ℚ)) = 0 := by
      rw [min_eq_right (by norm_num : (0:ℚ) ≤ 100)]
      exact max_self 0
    simp only [specMapperTarget, extFloatOrZero, h0]
    norm_num
    exact Or.inl (Or.inl hmc.2)

/-- C3, witness: the default mock calibration at half extension. -/
theorem C3_mapper_matches_spec_formula_witness :
    (defaultMapperState.open_pose = some mock_open_pose ∧
     defaultMapperState.closed_pose = some mock_closed_pose) ∧
    (compute_target_from_extensions defaultMapperState (fun _ => .val 50) =
      Except.ok (specMapperTarget mock_open_pose mock_closed_pose
        (sanitizeMaxCurl defaultMapperState.max_curl) defaultMapperState.weights
        (fun _ => .val 50)) ∧
    (∀ i j, specMapperTarget mock_open_pose mock_closed_pose
        (sanitizeMaxCurl defaultMapperState.max_curl) defaultMapperState.weights
        (fun _ => .val 100) i j = mock_open_pose i j) ∧
    (∀ i j, specMapperTarget mock_open_pose mock_closed_pose
        (sanitizeMaxCurl defaultMapperState.max_curl) defaultMapperState.weights
        (fun _ => .val 0) i j =
      mock_open_pose i j + sanitizeMaxCurl defaultMapperState.max_curl *
        defaultMapperState.weights (fingerOfRow i) j *
        (mock_closed_pose i j - mock_open_pose i j))) :=
  ⟨⟨rfl, rfl⟩, C3_mapper_matches_spec_formula defaultMapperState
    mock_open_pose mock_closed_pose rfl rfl (fun _ => .val 50)⟩

/-- C9: the Extension Mapper fails if and only if calibration is absent —
`open_pose` or `closed_pose` unset; with both set it returns a target pose for
every input mapping, whatever the entries. -/
theorem C9_mapper_error_iff_uncalibrated (st : MapperState)
    (exts : Finger → ExtInput) :
    (∃ e, compute_target_from_extensions st exts = Except.error e) ↔
      st.open_pose = none ∨ st.closed_pose = none := by
  unfold compute_target_from_extensions
  cases ho : st.open_pose <;> cases hc : st.closed_pose <;> simp

/-- One application of the motion filter with known limits keeps the applied
target within `[lo, hi]`: the clamped desired pose is within the limits, and
the speed-limited step lands between the previous target and the clamped
desired pose. -/
theorem filter_target_mem (cfg : FilterCfg) (lo hi p desired : Pose) (ra : Bool)
    (dtRaw : ℚ) (hlh : ∀ i j, lo i j ≤ hi i j)
    (hp : ∀ i j, lo i j ≤ p i j ∧ p i j ≤ hi i j) (i : Fin 5) (j : Fin 4) :
    lo i j ≤ filter_target cfg (some (lo, hi)) (some p) ra dtRaw desired i j ∧
      filter_target cfg (some (lo, hi)) (some p) ra dtRaw desired i j ≤ hi i j := by
  have htgt : ∀ a b, lo a b ≤ clampedDesired (some (lo, hi)) desired a b ∧
      clampedDesired (some (lo, hi)) desired a b ≤ hi a b :=
    fun a b => npClip_mem (hlh a b)
  simp only [filter_target]
  generalize (if ra = true then cfg.unjam_max_speed_rad_s else cfg.max_speed_rad_s) = ms
  split_ifs with h1 h2
  · have hb := npClip_step_between
      (p := p i j) (t := clampedDesired (some (lo, hi)) desired i j) h2
    exact ⟨le_trans (le_min (hp i j).1 (htgt i j).1) hb.1,
      le_trans hb.2 (max_le (hp i j).2 (htgt i j).2)⟩
  · exact htgt i j
  · exact htgt i j

/-- Any run of the filter from an in-bounds initial target stays in bounds. -/
theorem filterRun_mem (cfg : FilterCfg) (lo hi : Pose)
    (hlh : ∀ i j, lo i j ≤ hi i j) :
    ∀ (inputs : List (Pose × ℚ × Bool)) (init : Pose),
      (∀ i j, lo i j ≤ init i j ∧ init i j ≤ hi i j) →
      ∀ i j, lo i j ≤ filterRun cfg lo hi init inputs i j ∧
        filterRun cfg lo hi init inputs i j ≤ hi i j := by
  intro inputs
  induction inputs with
  | nil => exact fun init h i j => h i j
  | cons inp rest ih =>
      intro init h i j
      simp only [filterRun, List.foldl_cons]
      exact ih _ (fun a b => filter_target_mem cfg lo hi init inp.1 inp.2.2 inp.2.1 hlh h a b) i j

/-- C5: the applied target always lies within `[min_lim, max_lim]`
componentwise — it is initialised to the open pose (which picks the lower or
upper limit per joint), and every run of motion-filter applications preserves
the bounds, whatever desired poses, elapsed times and reset flags occur. -/
theorem C5_applied_target_invariant (cfg : FilterCfg) (lower upper : Pose)
    (sel : Fin 5 → Fin 4 → Bool) (inputs : List (Pose × ℚ × Bool))
    (i : Fin 5) (j : Fin 4) :
    min (lower i j) (upper i j) ≤
      filterRun cfg (fun a b => min (lower a b) (upper a b))
        (fun a b => max (lower a b) (upper a b)) (open_src sel lower upper) inputs i j ∧
      filterRun cfg (fun a b => min (lower a b) (upper a b))
        (fun a b => max (lower a b) (upper a b)) (open_src sel lower upper) inputs i j ≤
      max (lower i j) (upper i j) := by
  refine filterRun_mem cfg _ _ (fun a b => min_le_max) inputs _ ?_ i j
  intro a b
  unfold open_src
  split_ifs
  · exact ⟨min_le_left _ _, le_max_left _ _⟩
  · exact ⟨min_le_right _ _, le_max_right _ _⟩

/-- C7: a clear write is issued exactly under the guard "errors present,
fewer than 20 clears so far, at least 2 s since the previous clear"; hence
over any session the times of issued clear writes are spaced at least 2 s
apart (the first at least 2 s after the recorded `lastClear`), and at most
`20 - count` further writes ever occur — at most 20 in a fresh session. -/
theorem C7_error_clear_throttle (st : ClearState) (ticks : List (ℚ × Bool)) :
    (∀ (now : ℚ) (errAny : Bool), (clearStep st now errAny).2 = true ↔
      errAny = true ∧ st.count < 20 ∧ 2 ≤ now - st.lastClear) ∧
    List.Chain (fun a b => a + 2 ≤ b) st.lastClear (clearRun st ticks).2 ∧
    (clearRun st ticks).2.length ≤ 20 - st.count := by
  refine ⟨fun now errAny => ?_, ?_⟩
  · unfold clearStep
    split_ifs with h
    · simpa using h
    · simpa using h
  · induction ticks generalizing st with
    | nil => exact ⟨List.Chain.nil, by simp [clearRun]⟩
    | cons te rest ih =>
        obtain ⟨t, e⟩ := te
        by_cases hg : e = true ∧ st.count < 20 ∧ 2 ≤ t - st.lastClear
        · have hstep : clearStep st t e =
              ({ lastClear := t, count := st.count + 1 }, true) := by
            simp [clearStep, hg]
          have h2 := ih { lastClear := t, count := st.count + 1 }
          simp only [clearRun, hstep, if_true]
          refine ⟨List.Chain.cons (by linarith [hg.2.2]) h2.1, ?_⟩
          have hlen : (clearRun { lastClear := t, count := st.count + 1 } rest).2.length ≤
              20 - (st.count + 1) := h2.2
          have hcnt := hg.2.1
          simp only [List.length_cons]
          omega
        · have hstep : clearStep st t e = (st, false) := by
            simp only [clearStep, if_neg hg]
          simp only [clearRun, hstep, Bool.false_eq_true, if_false]
          exact ih st

/-- C8: after `n+1` consecutive connection failures the scheduled retry delay
— the value of `_connect_backoff_s` entering the `(n+1)`-st failure — equals
`min (3 * 1.5^n) 30` seconds (i.e. `min (3 * 1.5^(N-1)) 30` for the `N`-th
failure), and any successful connection resets the backoff to `3.0` s. -/
theorem C8_backoff_formula :
    (∀ n : ℕ, backoffAfterFailures n = min (3 * (3/2 : ℚ)^n) 30) ∧
    (∀ b : ℚ, connect_backoff_step b true = 3) := by
  constructor
  · intro n
    induction n with
    | zero => norm_num [backoffAfterFailures]
    | succ n ih =>
        have hpow : (3 : ℚ) * (3/2)^(n+1) = 3 * (3/2)^n * (3/2) := by ring
        rw [backoffAfterFailures, connect_backoff_step, if_neg (by simp), ih, hpow]
        rcases le_total (3 * (3/2 : ℚ)^n) 30 with h | h
        · rw [min_eq_left h]
        · rw [min_eq_right h]
          have hge : (30 : ℚ) ≤ 3 * (3/2)^n * (3/2) := by nlinarith
          rw [min_eq_right hge, min_eq_right (by norm_num : (30:ℚ) ≤ 30 * (3/2))]
  · intro b
    rfl

/-- C6: a reset/unjam session, once entered, always returns to Idle (reset
inactive, phase 0): on every tick at or after the deadline the session
completes; before the deadline it completes exactly when a position reading is
available, the phase (after this tick's advancement) has reached 5, and all
joints are within the configured threshold of the open target; and whenever
the tick completes the session, the state is Idle. -/
theorem C6_sequencer_returns_to_idle (thr om : ℚ) (op cp : Pose)
    (limits : Option (Pose × Pose)) (errAny : Bool) (s : SeqState) (now : ℚ)
    (pos : Option Pose) (hact : s.active = true) :
    (s.deadline ≤ now →
      (reset_completion_tick thr om op cp limits errAny s now pos).active = false ∧
      (reset_completion_tick thr om op cp limits errAny s now pos).phase = 0) ∧
    (now < s.deadline →
      ((reset_completion_tick thr om op cp limits errAny s now pos).active = false ↔
        ∃ p, pos = some p ∧
          5 ≤ (phaseAdvance thr (tickOpenTarget op cp limits om errAny) s now p).1 ∧
          allErr p (tickOpenTarget op cp limits om errAny) ≤ thr)) ∧
    ((reset_completion_tick thr om op cp limits errAny s now pos).active = false →
      (reset_completion_tick thr om op cp limits errAny s now pos).phase = 0) := by
  by_cases hd : now ≥ s.deadline
  · simp only [reset_completion_tick, hact, if_true, if_pos hd]
    exact ⟨fun _ => ⟨rfl, rfl⟩, fun hlt => absurd hd (not_le.mpr hlt), fun _ => rfl⟩
  · cases pos with
    | none =>
        simp only [reset_completion_tick, hact, if_true, if_neg hd]
        refine ⟨fun hdl => absurd hdl hd, fun hlt => ?_, fun hfalse => ?_⟩
        · constructor
          · intro hfalse
            exact absurd hfalse (by simp)
          · rintro ⟨p, hp, -⟩
            exact absurd hp (by simp)
        · exact absurd hfalse (by simp)
    | some p =>
        by_cases hdone :
            5 ≤ (phaseAdvance thr (tickOpenTarget op cp limits om errAny) s now p).1 ∧
            allErr p (tickOpenTarget op cp limits om errAny) ≤ thr
        · simp only [reset_completion_tick, hact, if_true, if_neg hd, if_pos hdone]
          exact ⟨fun hdl => absurd hdl hd,
            fun _ => ⟨fun _ => ⟨p, rfl, hdone⟩, fun _ => rfl⟩, fun _ => rfl⟩
        · simp only [reset_completion_tick, hact, if_true, if_neg hd, if_neg hdone]
          refine ⟨fun hdl => absurd hdl hd, fun hlt => ?_, fun hfalse => ?_⟩
          · constructor
            · intro hfalse
              exact absurd hfalse (by simp)
            · rintro ⟨q, hq, h5, herr⟩
              cases Option.some.inj hq
              exact absurd ⟨h5, herr⟩ hdone
          · exact absurd hfalse (by simp)

/-- C6, witness: an `"arm"` session one tick past its deadline, with the
tick's hardware read failed. -/
theorem C6_sequencer_returns_to_idle_witness :
    (sampleArmSession.active = true) ∧
    ((sampleArmSession.deadline ≤ 61 →
      (reset_completion_tick (3/20) (1/10) mock_open_pose mock_closed_pose
        (some (mock_min_lim, mock_max_lim)) false sampleArmSession 61 none).active = false ∧
      (reset_completion_tick (3/20) (1/10) mock_open_pose mock_closed_pose
        (some (mock_min_lim, mock_max_lim)) false sampleArmSession 61 none).phase = 0) ∧
    ((61:ℚ) < sampleArmSession.deadline →
      ((reset_completion_tick (3/20) (1/10) mock_open_pose mock_closed_pose
        (some (mock_min_lim, mock_max_lim)) false sampleArmSession 61 none).active = false ↔
        ∃ p, (none : Option Pose) = some p ∧
          5 ≤ (phaseAdvance (3/20)
            (tickOpenTarget mock_open_pose mock_closed_pose
              (some (mock_min_lim, mock_max_lim)) (1/10) false)
            sampleArmSession 61 p).1 ∧
          allErr p (tickOpenTarget mock_open_pose mock_closed_pose
            (some (mock_min_lim, mock_max_lim)) (1/10) false) ≤ 3/20)) ∧
    ((reset_completion_tick (3/20) (1/10) mock_open_pose mock_closed_pose
        (some (mock_min_lim, mock_max_lim)) false sampleArmSession 61 none).active = false →
      (reset_completion_tick (3/20) (1/10) mock_open_pose mock_closed_pose
        (some (mock_min_lim, mock_max_lim)) false sampleArmSession 61 none).phase = 0)) :=
  ⟨rfl, C6_sequencer_returns_to_idle (3/20) (1/10) mock_open_pose mock_closed_pose
    (some (mock_min_lim, mock_max_lim)) false sampleArmSession 61 none rfl⟩

set_option maxRecDepth 4000 in
/-- C10: a `hand_data` message processed while the bridge is disarmed, or
while a reset/unjam sequence is active, leaves `desired_target`,
`last_target` and `mock_position` (and the armed/reset/error/mapper state)
unchanged, while still updating exactly the command-telemetry fields:
`last_recv_monotonic` becomes the receive time, `last_cmd_ts_ms` the command
timestamp, and `cmd_times` gains the receive time (bounded window) — so a
command received mid-reset refreshes the watchdog but never moves the
motion target. -/
theorem C10_hand_data_ignored_when_disarmed_or_reset (st : BridgeState)
    (now : ℚ) (ts : ℤ) (exts : Finger → ExtInput)
    (h : st.armed = false ∨ st.reset_active = true) :
    (handle_hand_data st now ts exts).desired_target = st.desired_target ∧
    (handle_hand_data st now ts exts).last_target = st.last_target ∧
    (handle_hand_data st now ts exts).mock_position = st.mock_position ∧
    (handle_hand_data st now ts exts).armed = st.armed ∧
    (handle_hand_data st now ts exts).reset_active = st.reset_active ∧
    (handle_hand_data st now ts exts).last_hw_error = st.last_hw_error ∧
    (handle_hand_data st now ts exts).mapper = st.mapper ∧
    (handle_hand_data st now ts exts).last_recv_monotonic = now ∧
    (handle_hand_data st now ts exts).last_cmd_ts_ms = some ts ∧
    (handle_hand_data st now ts exts).cmd_times = dequeAppend 200 st.cmd_times now := by
  unfold handle_hand_data
  by_cases hA : st.armed = false
  · rw [if_pos hA]
    exact ⟨rfl, rfl, rfl, rfl, rfl, rfl, rfl, rfl, rfl, rfl⟩
  · rcases h with h | h
    · exact absurd h hA
    · rw [if_neg hA, if_pos h]
      exact ⟨rfl, rfl, rfl, rfl, rfl, rfl, rfl, rfl, rfl, rfl⟩

/-- C10, witness: a half-extension command arriving at a disarmed bridge. -/
theorem C10_hand_data_ignored_when_disarmed_or_reset_witness :
    (sampleDisarmedState.armed = false ∨ sampleDisarmedState.reset_active = true) ∧
    ((handle_hand_data sampleDisarmedState 1 5 (fun _ => .val 50)).desired_target =
        sampleDisarmedState.desired_target ∧
    (handle_hand_data sampleDisarmedState 1 5 (fun _ => .val 50)).last_target =
        sampleDisarmedState.last_target ∧
    (handle_hand_data sampleDisarmedState 1 5 (fun _ => .val 50)).mock_position =
        sampleDisarmedState.mock_position ∧
    (handle_hand_data sampleDisarmedState 1 5 (fun _ => .val 50)).armed =
        sampleDisarmedState.armed ∧
    (handle_hand_data sampleDisarmedState 1 5 (fun _ => .val 50)).reset_active =
        sampleDisarmedState.reset_active ∧
    (handle_hand_data sampleDisarmedState 1 5 (fun _ => .val 50)).last_hw_error =
        sampleDisarmedState.last_hw_error ∧
    (handle_hand_data sampleDisarmedState 1 5 (fun _ => .val 50)).mapper =
        sampleDisarmedState.mapper ∧
    (handle_hand_data sampleDisarmedState 1 5 (fun _ => .val 50)).last_recv_monotonic = 1 ∧
    (handle_hand_data sampleDisarmedState 1 5 (fun _ => .val 50)).last_cmd_ts_ms = some 5 ∧
    (handle_hand_data sampleDisarmedState 1 5 (fun _ => .val 50)).cmd_times =
        dequeAppend 200 sampleDisarmedState.cmd_times 1) :=
  ⟨Or.inl rfl, C10_hand_data_ignored_when_disarmed_or_reset sampleDisarmedState
    1 5 (fun _ => .val 50) (Or.inl rfl)⟩

end WujiBridge
